import Mathlib

/-!
Shallow embedding of the core of the AI-Media-Forensics detector
(`src/lib/enhanced-ai-detector-fixed.py` and `src/lib/enhanced-ai-detector.py`)
together with theorems settling the specification claims about it.

Modelling conventions:
* Python/torch floating-point scalars are modelled as rationals (`ℚ`);
  where a float operation has no rational counterpart (IEEE division by
  zero producing NaN) the embedding uses `Option ℚ` with `none` for the
  non-finite result.
* Image tensors and the pretrained backbone are external collaborators:
  an image is an opaque token (`ℕ`) and the deterministic forward pass of
  the frozen network is a function parameter `net : ℕ → ℚ × ℚ` producing
  the two raw class logits.
* `softmax`, `exp`-based and `sqrt`-based statistics are irrational; they
  enter the embedding as function parameters, used exactly where the
  source calls them.  The claims settled here depend only on how the
  source *uses* these values (comparisons, list structure), never on the
  transcendental values themselves.
-/

namespace AIForensics

/-- Result record built per image by
`EnhancedAIDetector.predict_with_uncertainty`
(`enhanced-ai-detector-fixed.py`, lines 457-486): the fields of the
Python dict appended to `results`. -/
structure UncResult where
  prediction : String
  confidence : ℚ
  syntheticProbability : ℚ
  realProbability : ℚ
  isUncertain : Bool
  logits : ℚ × ℚ
  calibratedLogits : ℚ × ℚ
deriving DecidableEq

/-- `torch.max(probabilities, 1)` on a two-class probability row:
returns the maximal value and its index, the lower index winning ties. -/
def torchMax2 (p0 p1 : ℚ) : ℚ × ℕ :=
  if p0 < p1 then (p1, 1) else (p0, 0)

/-- `EnhancedAIDetector.predict_with_uncertainty` for a single image
(`enhanced-ai-detector-fixed.py`, lines 443-488).  `net` is the
deterministic eval-mode forward pass (backbone + frequency branch +
fusion + classifier, an external collaborator producing the raw logits);
`softmax` is `F.softmax` on a two-logit row, abstracted because `exp` is
irrational.  The temperature division, the uncertainty gate
`max_prob < uncertainty_threshold` and the verdict strings are
transcribed from the source. -/
def predictWithUncertainty (net : ℕ → ℚ × ℚ) (softmax : ℚ × ℚ → ℚ × ℚ)
    (temperature threshold : ℚ) (applyTemperature : Bool) (img : ℕ) : UncResult :=
  let logits := net img
  let calibrated :=
    if applyTemperature then (logits.1 / temperature, logits.2 / temperature) else logits
  let probs := softmax calibrated
  let m := torchMax2 probs.1 probs.2
  let isUnc : Bool := decide (m.1 < threshold)
  { prediction :=
      if isUnc then "UNCERTAIN" else if m.2 = 1 then "synthetic" else "real",
    confidence := m.1,
    syntheticProbability := probs.2,
    realProbability := probs.1,
    isUncertain := isUnc,
    logits := logits,
    calibratedLogits := calibrated }

/-! ### Frequency-domain feature extraction
(`FrequencyFeatureExtractor` in `enhanced-ai-detector-fixed.py`). -/

/-- The real-valued statistics `np.mean`, `np.std`, `np.max` and
`np.percentile` called by the feature extractor.  `std` (and in general
`percentile`) are irrational, so the whole quadruple is abstracted as a
parameter bundle; the extractor below calls these fields exactly where
the source calls the corresponding numpy routines. -/
structure NumpyStats where
  mean : List ℚ → ℚ
  std : List ℚ → ℚ
  maxv : List ℚ → ℚ
  pct : ℚ → List ℚ → ℚ

/-- Squared Euclidean distance of pixel `(y, x)` from the spectrum
center `(h // 2, w // 2)` — the square of the `distances` array of
`_extract_frequency_stats`. -/
def distSq (h w y x : ℕ) : ℤ :=
  ((x : ℤ) - (w : ℤ) / 2) ^ 2 + ((y : ℤ) - (h : ℤ) / 2) ^ 2

/-- The magnitude-spectrum values in the radial band
`r_min ≤ distance < r_max`, in row-major order (the masked selection
`magnitude_spectrum[mask]`).  `distance ≥ r_min ↔ distance² ≥ r_min²`
and likewise for the upper bound, so the real square root never needs
to be taken. -/
def bandValues (M : ℕ → ℕ → ℚ) (h w rmin rmax : ℕ) : List ℚ :=
  (List.range h).flatMap fun y =>
    (List.range w).filterMap fun x =>
      if ((rmin : ℤ) ^ 2 ≤ distSq h w y x ∧ distSq h w y x < (rmax : ℤ) ^ 2) then
        some (M y x)
      else none

/-- The magnitude-spectrum values strictly beyond radius 80
(`high_freq_mask = distances > 80`). -/
def highFreqValues (M : ℕ → ℕ → ℚ) (h w : ℕ) : List ℚ :=
  (List.range h).flatMap fun y =>
    (List.range w).filterMap fun x =>
      if (80 : ℤ) ^ 2 < distSq h w y x then some (M y x) else none

/-- All magnitude-spectrum entries in row-major order (the whole
`magnitude_spectrum` array / its `flatten()`). -/
def allValues (M : ℕ → ℕ → ℚ) (h w : ℕ) : List ℚ :=
  (List.range h).flatMap fun y => (List.range w).map fun x => M y x

/-- `features = features[:256]; features.extend([0] * (256 - len(features)))`
— the pad-or-truncate step closing both feature extractors. -/
def padTo256 (l : List ℚ) : List ℚ :=
  let t := l.take 256
  t ++ List.replicate (256 - t.length) 0

/-- The per-band statistics block of `_extract_frequency_stats`: for each
of the radial bands (0,20), (20,50), (50,100), four statistics when the
band is non-empty and four zeros otherwise. -/
def bandFeatures (S : NumpyStats) (M : ℕ → ℕ → ℚ) (h w : ℕ) : List ℚ :=
  [(0, 20), (20, 50), (50, 100)].flatMap fun rp =>
    let b := bandValues M h w rp.1 rp.2
    if b.isEmpty then [0, 0, 0, 0]
    else [S.mean b, S.std b, S.maxv b, S.pct 95 b]

/-- `FrequencyFeatureExtractor._extract_frequency_stats`
(`enhanced-ai-detector-fixed.py`, lines 89-149) on an `h × w` magnitude
spectrum `M`: three radial-band blocks, five global statistics, four
directional statistics from the central row and column, the
high-frequency block (three zeros when the region is empty), then
pad-or-truncate to exactly 256 entries. -/
def extractFrequencyStats (S : NumpyStats) (M : ℕ → ℕ → ℚ) (h w : ℕ) : List ℚ :=
  let hLine := (List.range w).map fun x => M (h / 2) x
  let vLine := (List.range h).map fun y => M y (w / 2)
  let av := allValues M h w
  let hf := highFreqValues M h w
  let features :=
    bandFeatures S M h w ++
    [S.mean av, S.std av, S.maxv av, S.pct 95 av, S.pct 5 av] ++
    [S.mean hLine, S.std hLine, S.mean vLine, S.std vLine] ++
    (if hf.isEmpty then [0, 0, 0]
     else [S.mean hf, S.std hf,
           ((hf.filter fun v => S.mean hf * 2 < v).length : ℚ)])
  padTo256 features

/-- Block start offsets of `range(0, n - 7, 8)`: `0, 8, …` while the
full 8-wide block fits.  For `n ≥ 8` the Python range has
`⌈(n-7)/8⌉ = n / 8` elements, and it is empty for `n < 8`. -/
def blockStarts (n : ℕ) : List ℕ :=
  (List.range (n / 8)).map fun k => k * 8

/-- Raster-order top-left corners of the non-overlapping 8×8 blocks the
DCT branch visits. -/
def blockPositions (h w : ℕ) : List (ℕ × ℕ) :=
  (blockStarts h).flatMap fun i => (blockStarts w).map fun j => (i, j)

/-- `dct_block.flatten()` of the 8×8 transformed block at corner
`(i, j)`: `dctFn` is `cv2.dct` (a cosine transform, hence irrational —
abstracted as a parameter mapping the extracted sub-block to its
transformed matrix), flattened in row-major order (64 entries). -/
def dctFlatten (dctFn : (ℕ → ℕ → ℚ) → ℕ → ℕ → ℚ) (img : ℕ → ℕ → ℚ)
    (i j : ℕ) : List ℚ :=
  (List.range 8).flatMap fun r =>
    (List.range 8).map fun c => dctFn (fun a b => img (i + a) (j + b)) r c

/-- The four statistics appended per 8×8 block by
`_extract_dct_block_features`: AC coefficients (DC dropped), mean
absolute value, standard deviation, max absolute value, and the count of
coefficients whose magnitude exceeds the block's standard deviation;
nothing is appended when there are no AC coefficients. -/
def dctBlockFeatures (S : NumpyStats) (dctFn : (ℕ → ℕ → ℚ) → ℕ → ℕ → ℚ)
    (img : ℕ → ℕ → ℚ) (i j : ℕ) : List ℚ :=
  let ac := (dctFlatten dctFn img i j).drop 1
  if ac.isEmpty then []
  else [S.mean (ac.map fun v => |v|), S.std ac, S.maxv (ac.map fun v => |v|),
        ((ac.filter fun v => S.std ac < |v|).length : ℚ)]

/-- The doubly-nested block loop of `_extract_dct_block_features` with
its early exit: blocks are consumed in raster order, each appending its
four statistics, and the loop breaks (inner and outer break share the
test) as soon as at least 252 features have accumulated. -/
def dctLoop (S : NumpyStats) (dctFn : (ℕ → ℕ → ℚ) → ℕ → ℕ → ℚ)
    (img : ℕ → ℕ → ℚ) : List (ℕ × ℕ) → List ℚ → List ℚ
  | [], acc => acc
  | p :: rest, acc =>
      let acc2 := acc ++ dctBlockFeatures S dctFn img p.1 p.2
      if 252 ≤ acc2.length then acc2 else dctLoop S dctFn img rest acc2

/-- `FrequencyFeatureExtractor._extract_dct_block_features`
(`enhanced-ai-detector-fixed.py`, lines 151-186) on an `h × w` luminance
image: run the bounded block loop, then pad-or-truncate to exactly
256 entries. -/
def extractDctBlockFeatures (S : NumpyStats) (dctFn : (ℕ → ℕ → ℚ) → ℕ → ℕ → ℚ)
    (img : ℕ → ℕ → ℚ) (h w : ℕ) : List ℚ :=
  padTo256 (dctLoop S dctFn img (blockPositions h w) [])

/-! ### Replay buffer (`ReplayBuffer` in `enhanced-ai-detector.py`). -/

/-- One entry of `ReplayBuffer.buffer` (`enhanced-ai-detector.py`,
lines 198-205): the dict appended by `add`.  The image tensor is an
opaque token; `timestamp` holds the value of
`torch.tensor(len(self.buffer))`, i.e. the buffer length at the moment
of insertion — the spec's `insertion_order` field. -/
structure ReplaySample where
  image : ℕ
  prediction : ℚ
  confidence : ℚ
  groundTruth : Option ℤ
  userFeedback : Option ℤ
  timestamp : ℕ
deriving DecidableEq

/-- `collections.deque(maxlen = cap).append`: append on the right and,
when the length would exceed `cap`, drop from the left. -/
def dequeAppend {α : Type} (cap : ℕ) (buf : List α) (a : α) : List α :=
  let b := buf ++ [a]
  if cap < b.length then b.drop (b.length - cap) else b

/-- `ReplayBuffer.add` (`enhanced-ai-detector.py`, lines 195-205):
builds the sample dict — with `timestamp = len(self.buffer)` taken
before the append — and appends it into the bounded deque. -/
def replayAdd (cap : ℕ) (buf : List ReplaySample) (img : ℕ) (pred conf : ℚ)
    (gt uf : Option ℤ) : List ReplaySample :=
  dequeAppend cap buf
    { image := img, prediction := pred, confidence := conf,
      groundTruth := gt, userFeedback := uf, timestamp := buf.length }

/-- The arguments of one `add` call, used to model an arbitrary
sequence of insertions. -/
structure AddInput where
  img : ℕ
  pred : ℚ
  conf : ℚ
  gt : Option ℤ
  uf : Option ℤ
deriving DecidableEq

/-- The buffer produced by a sequence of `add` calls starting from the
empty buffer. -/
def replayAddAll (cap : ℕ) (inputs : List AddInput) : List ReplaySample :=
  inputs.foldl (fun buf a => replayAdd cap buf a.img a.pred a.conf a.gt a.uf) []

/-- The `insertion_order` (`timestamp`) value assigned by the `(k+1)`-th
`add` of the sequence: the buffer length after the first `k` adds. -/
def orderAt (cap : ℕ) (inputs : List AddInput) (k : ℕ) : ℕ :=
  (replayAddAll cap (inputs.take k)).length

/-- `ReplayBuffer.sample` (`enhanced-ai-detector.py`, lines 207-231).
`choose n k` stands for `np.random.choice(n, k, replace=False)` — an
arbitrary draw of `k` distinct indices below `n`, abstracted as a
parameter since it is randomized; theorems hypothesize exactly that
contract.  `int(batch_size * 0.7)` is embedded as `batchSize * 7 / 10`
(for the batch sizes used in witnesses and counterexamples below the
IEEE double product `batch_size * 0.7` truncates to the same integer).
The source fills the remainder `batch_size - feedback_count` from the
no-feedback subset but caps it at that subset's size without returning
to the feedback subset for the shortfall. -/
def replaySample (choose : ℕ → ℕ → List ℕ) (buffer : List ReplaySample)
    (batchSize : ℕ) : List ReplaySample :=
  if buffer.length < batchSize then buffer
  else
    let fb := buffer.filter fun s => s.userFeedback.isSome
    let nfb := buffer.filter fun s => s.userFeedback.isNone
    let fbCount := min (batchSize * 7 / 10) fb.length
    let nfbCount := batchSize - fbCount
    let sel1 :=
      if 0 < fbCount then (choose fb.length fbCount).filterMap (fun i => fb[i]?)
      else []
    let sel2 :=
      if 0 < nfbCount ∧ ¬ nfb.isEmpty then
        (choose nfb.length (min nfbCount nfb.length)).filterMap (fun i => nfb[i]?)
      else []
    sel1 ++ sel2

/-! ### Temperature calibration. -/

/-- `torch.clamp(x, min=lo, max=hi)`. -/
def clampQ (x lo hi : ℚ) : ℚ := min (max x lo) hi

/-- `TemperatureScaling.calibrate` (`enhanced-ai-detector-fixed.py`,
lines 208-224): the LBFGS optimization restricted to the temperature is
an external numeric routine, abstracted as `optStep` (the temperature it
leaves behind, whatever the logits/labels batch made it do); the method
then clamps the temperature into `[0.1, 10.0]`. -/
def calibrateFixed (optStep : ℚ → ℚ) (t : ℚ) : ℚ :=
  clampQ (optStep t) (1 / 10) 10

/-- `EnhancedAIDetectorPipeline.calibrate_temperature`
(`enhanced-ai-detector.py`, lines 590-617): the same LBFGS optimization,
but the method ends right after `optimizer.step` — no clamping is
applied to the resulting temperature. -/
def calibratePipeline (optStep : ℚ → ℚ) (t : ℚ) : ℚ :=
  optStep t

/-! ### Elastic weight consolidation
(`ElasticWeightConsolidation` in `enhanced-ai-detector.py`). -/

/-- One named model parameter tensor (flattened to a list of scalars)
with its `requires_grad` flag. -/
structure ModelParam where
  name : String
  values : List ℚ
  requiresGrad : Bool

/-- The state held by `ElasticWeightConsolidation`: `lambda_ewc`, the
parameter snapshot `self.params` and the Fisher accumulators
`self.fisher`, both keyed by parameter name. -/
structure EWCState where
  lambdaEwc : ℚ
  params : List (String × List ℚ)
  fisher : List (String × List ℚ)

/-- Python `dict` lookup on the name-keyed association list. -/
def dictFind (kvs : List (String × List ℚ)) (n : String) : Option (List ℚ) :=
  (kvs.find? fun kv => kv.1 = n).map fun kv => kv.2

/-- `ElasticWeightConsolidation.__init__` (`enhanced-ai-detector.py`,
lines 240-244): snapshot every `requires_grad` parameter
(`p.clone().detach()`) and zero-initialize a Fisher accumulator of the
same shape (`torch.zeros_like(p)`). -/
def ewcInit (model : List ModelParam) (lam : ℚ) : EWCState :=
  { lambdaEwc := lam,
    params := (model.filter fun p => p.requiresGrad).map fun p => (p.name, p.values),
    fisher := (model.filter fun p => p.requiresGrad).map fun p =>
      (p.name, p.values.map fun _ => (0 : ℚ)) }

/-- `(self.fisher[n] * (p - self.params[n]).pow(2)).sum()` for one
parameter: element-wise Fisher-weighted squared drift, summed. -/
def quadSum : List ℚ → List ℚ → List ℚ → ℚ
  | f :: fs, v :: vs, s :: ss => f * (v - s) ^ 2 + quadSum fs vs ss
  | _, _, _ => 0

/-- `ElasticWeightConsolidation.penalty` (`enhanced-ai-detector.py`,
lines 267-274): `lambda_ewc` times the sum, over every `requires_grad`
parameter whose name is a key of `self.fisher`, of the Fisher-weighted
squared drift from the snapshot.  (In the source `self.params` and
`self.fisher` are always built with identical key sets, so the `getD []`
default for the snapshot lookup is unreachable.) -/
def ewcPenalty (model : List ModelParam) (e : EWCState) : ℚ :=
  e.lambdaEwc *
    (model.foldl (fun acc p =>
      if p.requiresGrad ∧ (dictFind e.fisher p.name).isSome then
        acc + quadSum ((dictFind e.fisher p.name).getD [])
                p.values ((dictFind e.params p.name).getD [])
      else acc) 0)

/-! ### Incremental training guard
(`EnhancedAIDetectorPipeline.incremental_train`). -/

/-- The pieces of pipeline state the no-op claim is about: model
parameters, the calibration temperature, the EWC guard state, the replay
buffer and the scheduler position. -/
structure PipelineState where
  modelParams : List ModelParam
  temperature : ℚ
  ewc : Option EWCState
  buffer : List ReplaySample
  schedulerSteps : ℕ

/-- `EnhancedAIDetectorPipeline.incremental_train`
(`enhanced-ai-detector.py`, lines 481-542): when the replay buffer holds
fewer than `batch_size` samples the method logs a warning and returns at
once, before the EWC initialization, the training loop and the scheduler
step; otherwise it runs the training body (EWC Fisher initialization,
epochs of gradient steps, scheduler advance), abstracted here as
`trainBody` since it performs real-valued gradient descent through the
external network. -/
def incrementalTrain (trainBody : PipelineState → ℕ → ℕ → PipelineState)
    (s : PipelineState) (numEpochs batchSize : ℕ) : PipelineState :=
  if s.buffer.length < batchSize then s
  else trainBody s numEpochs batchSize

/-! ### Grad-CAM saliency maps. -/

/-- A 2-D activation / gradient / heatmap slice. -/
abbrev Mat : Type := List (List ℚ)

/-- Largest entry of a 2-D map, seeded with 0 (`torch.max` of a tensor;
the seed is neutral here because it is only ever applied to the output
of the ReLU, whose entries are all ≥ 0, and torch errors on an empty
tensor which the claims do not exercise). -/
def matMax (m : Mat) : ℚ :=
  (m.flatMap id).foldl max 0

/-- Element-wise ReLU (`F.relu`). -/
def relu2d (m : Mat) : Mat :=
  m.map fun row => row.map fun x => max x 0

/-- Scale every entry by `c`. -/
def scale2d (c : ℚ) (m : Mat) : Mat :=
  m.map fun row => row.map fun x => c * x

/-- Element-wise sum of two maps of equal shape. -/
def matAdd (a b : Mat) : Mat :=
  List.zipWith (fun ra rb => List.zipWith (· + ·) ra rb) a b

/-- All-zero map with the shape of `m` (`torch.zeros(shape)`). -/
def zerosLike (m : Mat) : Mat :=
  m.map fun row => row.map fun _ => (0 : ℚ)

/-- `gradients.mean(dim=(1, 2))` for one channel: the spatial mean of a
gradient slice (exact, since the arithmetic mean of rationals is
rational). -/
def spatialMean (g : Mat) : ℚ :=
  (g.flatMap id).sum / ((g.flatMap id).length : ℚ)

/-- The weighted sum of activation channels common to both Grad-CAM
implementations: `cam = zeros(act.shape[1:]);
for i, w in enumerate(weights): cam += w * activations[i]`, with
`weights` the per-channel spatial means of the gradients.  `grads` and
`acts` are the hook-captured gradient and activation channel stacks (the
autograd machinery producing them is an external collaborator). -/
def camWeightedSum (grads acts : List Mat) : Mat :=
  (List.zip (grads.map spatialMean) acts).foldl
    (fun cam wa => matAdd cam (scale2d wa.1 wa.2))
    (zerosLike (acts.headD []))

/-- `GradCAM.generate_cam` (`enhanced-ai-detector-fixed.py`,
lines 307-342), from the captured gradients and activations: weighted
sum of activation channels, ReLU, then division by the maximum guarded
by `if cam.max() > 0` — an all-zero map is returned as is. -/
def generateCam (grads acts : List Mat) : Mat :=
  let cam := relu2d (camWeightedSum grads acts)
  if 0 < matMax cam then scale2d (1 / matMax cam) cam else cam

/-- IEEE division as used by `heatmap / torch.max(heatmap)`: a zero
denominator produces a non-finite value (NaN for `0/0`), modelled as
`none`. -/
def fdiv (a b : ℚ) : Option ℚ :=
  if b = 0 then none else some (a / b)

/-- `GradCAMVisualizer.generate_heatmap` (`enhanced-ai-detector.py`,
lines 154-184), from the captured gradients and activations: weighted
sum of activation channels, ReLU, then **unconditional** division by
`torch.max(heatmap)` — there is no positivity guard, so an all-zero map
is divided by zero entry by entry. -/
def generateHeatmap (grads acts : List Mat) : List (List (Option ℚ)) :=
  let h := relu2d (camWeightedSum grads acts)
  h.map fun row => row.map fun x => fdiv x (matMax h)

/-! ### Stateful pipeline inference
(`EnhancedAIDetectorPipeline.predict`, `enhanced-ai-detector.py`,
lines 418-468). -/

/-- The result dict built by `EnhancedAIDetectorPipeline.predict`:
prediction string, confidence, certainty flag and the two class
probabilities. -/
structure PipePredResult where
  prediction : String
  confidence : ℚ
  isCertain : Bool
  probReal : ℚ
  probAi : ℚ
deriving DecidableEq

/-- The state `predict` reads and writes: the frozen model (its
deterministic eval-mode forward pass `net`, producing the raw logits of
a preprocessed image, and the calibration temperature), the confidence
threshold, and the bounded replay buffer. -/
structure PipeState where
  net : ℕ → ℚ × ℚ
  temperature : ℚ
  confidenceThreshold : ℚ
  bufferCap : ℕ
  buffer : List ReplaySample

/-- `EnhancedAIDetectorPipeline.predict` on one image: forward pass to
raw logits, temperature scaling (`EnhancedAIDetector.forward` returns
both), softmax (abstracted, as `exp` is irrational), confidence and
arg-max class via `torch.max` / `torch.argmax`, the certainty gate
`confidence >= self.confidence_threshold`, and finally
`self.replay_buffer.add(...)` — the one state change the call makes.
Returns the result record together with the updated state. -/
def pipelinePredict (softmax : ℚ × ℚ → ℚ × ℚ) (s : PipeState) (img : ℕ) :
    PipePredResult × PipeState :=
  let logits := s.net img
  let calibrated := (logits.1 / s.temperature, logits.2 / s.temperature)
  let probs := softmax calibrated
  let m := torchMax2 probs.1 probs.2
  let result : PipePredResult :=
    { prediction := if m.2 = 1 then "ai_generated" else "real",
      confidence := m.1,
      isCertain := decide (s.confidenceThreshold ≤ m.1),
      probReal := probs.1,
      probAi := probs.2 }
  let buffer2 := replayAdd s.bufferCap s.buffer img (m.2 : ℚ) m.1 none none
  (result, { s with buffer := buffer2 })

/-! ### Concrete instances used by witnesses and counterexamples. -/

/-- The size `ReplayBuffer.sample` actually returns, as a function of
the buffer contents and the batch size: everything when the buffer is
smaller than the batch, and otherwise the capped feedback draw plus the
capped no-feedback remainder — the exact-size specification stated by
the amended claim. -/
def replaySampleSize (buffer : List ReplaySample) (batchSize : ℕ) : ℕ :=
  if buffer.length < batchSize then buffer.length
  else
    let fbCount :=
      min (batchSize * 7 / 10) (buffer.filter fun s => s.userFeedback.isSome).length
    fbCount + min (batchSize - fbCount)
      (buffer.filter fun s => s.userFeedback.isNone).length

/-- A deterministic draw satisfying the `np.random.choice(n, k,
replace=False)` contract: the first `k` indices. -/
def chooseRange : ℕ → ℕ → List ℕ := fun _ k => List.range k

/-- A ten-sample buffer: nine samples carrying user feedback and one
without. -/
def c3buffer : List ReplaySample :=
  ((List.range 9).map fun i =>
    { image := i, prediction := 0, confidence := 0, groundTruth := none,
      userFeedback := some 1, timestamp := i }) ++
  [{ image := 9, prediction := 0, confidence := 0, groundTruth := none,
     userFeedback := none, timestamp := 9 }]

/-- Four `add` calls in a row. -/
def c7inputs : List AddInput :=
  [⟨0, 0, 0, none, none⟩, ⟨1, 0, 0, none, none⟩,
   ⟨2, 0, 0, none, none⟩, ⟨3, 0, 0, none, none⟩]

/-- A single-channel 1×1 gradient stack whose (negative) contribution is
wiped out by the ReLU. -/
def c8grads : List Mat := [[[-1]]]

/-- The matching single-channel 1×1 activation stack. -/
def c8acts : List Mat := [[[1]]]

/-- A concrete forward pass used by witnesses. -/
def net0 : ℕ → ℚ × ℚ := fun _ => (1, 2)

/-- A concrete softmax stand-in producing the (degenerate) probability
row `(0, 1)`; witnesses use division-free rationals so the records can
be evaluated by `decide`. -/
def sm1 : ℚ × ℚ → ℚ × ℚ := fun _ => (0, 1)

/-- A concrete pipeline state with an empty replay buffer. -/
def s5 : PipelineState :=
  { modelParams := [], temperature := 3 / 2, ewc := none, buffer := [],
    schedulerSteps := 0 }

/-- A training body that would visibly change the state if it ran. -/
def body5 : PipelineState → ℕ → ℕ → PipelineState :=
  fun st _ _ => { st with temperature := 0 }

/-- A concrete pipeline inference state: the `net0` logits, unit
temperature, confidence threshold 2 and an empty bounded buffer. -/
def ps1 : PipeState :=
  { net := net0, temperature := 1, confidenceThreshold := 2,
    bufferCap := 10, buffer := [] }

/-! ## Theorems -/

/-- The pad-or-truncate step always produces exactly 256 entries. -/
theorem padTo256_length (l : List ℚ) : (padTo256 l).length = 256 := by
  simp only [padTo256, List.length_append, List.length_replicate, List.length_take]
  omega

/-- C2.  For every image — any height and width, including dimensions
not divisible by 8 and degenerate uniform-color images (the spectrum `M`
and luminance `img` are arbitrary functions, so both are covered) — each
branch of the spectral feature extractor returns a vector of exactly
256 entries, whatever values the abstracted numpy statistics and the DCT
take; in particular the extraction is total and never raises. -/
theorem c2_feature_vector_length_256 (S : NumpyStats) (M : ℕ → ℕ → ℚ) (h w : ℕ)
    (dctFn : (ℕ → ℕ → ℚ) → ℕ → ℕ → ℚ) (img : ℕ → ℕ → ℚ) :
    (extractFrequencyStats S M h w).length = 256 ∧
    (extractDctBlockFeatures S dctFn img h w).length = 256 :=
  ⟨padTo256_length _, padTo256_length _⟩

/-- C4 (amended).  `TemperatureScaling.calibrate` of the fixed detector
clamps, so its resulting temperature lies in `[0.1, 10.0]` for every
starting temperature and every behavior of the LBFGS optimizer. -/
theorem c4_temperature_clamped_amended (optStep : ℚ → ℚ) (t : ℚ) :
    1 / 10 ≤ calibrateFixed optStep t ∧ calibrateFixed optStep t ≤ 10 := by
  unfold calibrateFixed clampQ
  refine ⟨le_min (le_max_right _ _) (by norm_num), min_le_right _ _⟩

/-- C4 (counterexample).  `EnhancedAIDetectorPipeline.calibrate_temperature`
applies no clamp: an optimizer step that leaves the temperature at 50
yields a post-fit temperature of 50, outside `[0.1, 10.0]`, refuting the
claim that the temperature after any calibration fit lies in that
interval regardless of what the optimizer did. -/
theorem c4_pipeline_no_clamp_counterexample :
    calibratePipeline (fun _ => 50) (3 / 2) = 50 ∧ ¬ ((50 : ℚ) ≤ 10) :=
  ⟨rfl, by norm_num⟩

/-- C5.  When the replay buffer holds fewer than `batch_size` samples,
`incremental_train` returns at once: the whole pipeline state — in
particular the model parameters, the calibration temperature and the EWC
Fisher/snapshot state — is exactly unchanged, whatever the training body
would have done. -/
theorem c5_incremental_train_noop (trainBody : PipelineState → ℕ → ℕ → PipelineState)
    (s : PipelineState) (numEpochs batchSize : ℕ)
    (h : s.buffer.length < batchSize) :
    incrementalTrain trainBody s numEpochs batchSize = s ∧
    (incrementalTrain trainBody s numEpochs batchSize).modelParams = s.modelParams ∧
    (incrementalTrain trainBody s numEpochs batchSize).temperature = s.temperature ∧
    (incrementalTrain trainBody s numEpochs batchSize).ewc = s.ewc := by
  have hs : incrementalTrain trainBody s numEpochs batchSize = s := by
    simp [incrementalTrain, h]
  exact ⟨hs, by rw [hs], by rw [hs], by rw [hs]⟩

/-- C5 witness: a pipeline state with an empty buffer and batch size 16
is left untouched even by a training body that would zero the
temperature. -/
theorem c5_incremental_train_noop_witness :
    incrementalTrain body5 s5 5 16 = s5 ∧
    (incrementalTrain body5 s5 5 16).modelParams = s5.modelParams ∧
    (incrementalTrain body5 s5 5 16).temperature = s5.temperature ∧
    (incrementalTrain body5 s5 5 16).ewc = s5.ewc :=
  c5_incremental_train_noop body5 s5 5 16 (by decide)

/-- Fisher-weighted squared drift vanishes whenever every Fisher entry
is zero. -/
theorem quadSum_zero (f v s : List ℚ) (hf : ∀ x ∈ f, x = 0) :
    quadSum f v s = 0 := by
  induction f generalizing v s with
  | nil => cases v <;> cases s <;> rfl
  | cons a f ih =>
    cases v with
    | nil => rfl
    | cons b v =>
      cases s with
      | nil => rfl
      | cons c s =>
        have ha : a = 0 := hf a (by simp)
        have hrest : quadSum f v s = 0 := ih v s fun x hx => hf x (by simp [hx])
        simp [quadSum, ha, hrest]

/-- Every value list stored in the freshly initialized Fisher dictionary
is all zeros. -/
theorem ewcInit_fisher_zero (model : List ModelParam) (lam : ℚ) (n : String)
    (l : List ℚ) (hl : dictFind (ewcInit model lam).fisher n = some l) :
    ∀ x ∈ l, x = 0 := by
  intro x hx
  unfold dictFind at hl
  obtain ⟨kv, hfind, hkv⟩ := Option.map_eq_some'.mp hl
  have hmem : kv ∈ (ewcInit model lam).fisher := List.mem_of_find?_eq_some hfind
  simp only [ewcInit, List.mem_map] at hmem
  obtain ⟨p, _, hp⟩ := hmem
  rw [← hkv, ← hp] at hx
  simp only [List.mem_map] at hx
  obtain ⟨_, _, hx0⟩ := hx
  exact hx0.symm

/-- C6.  Immediately after `ElasticWeightConsolidation` is constructed
from a model, `penalty()` returns exactly 0: the Fisher accumulators are
zero-initialized (and the snapshot equals the current parameters), so
every Fisher-weighted squared-drift term vanishes. -/
theorem c6_ewc_penalty_zero_at_init (model : List ModelParam) (lam : ℚ) :
    ewcPenalty model (ewcInit model lam) = 0 := by
  unfold ewcPenalty
  have hstep : ∀ (m : List ModelParam) (acc : ℚ),
      m.foldl (fun acc p =>
        if p.requiresGrad ∧ (dictFind (ewcInit model lam).fisher p.name).isSome then
          acc + quadSum ((dictFind (ewcInit model lam).fisher p.name).getD [])
                  p.values ((dictFind (ewcInit model lam).params p.name).getD [])
        else acc) acc = acc := by
    intro m
    induction m with
    | nil => intro acc; rfl
    | cons p m ih =>
      intro acc
      rw [List.foldl_cons]
      by_cases hp : p.requiresGrad ∧ (dictFind (ewcInit model lam).fisher p.name).isSome
      · obtain ⟨l, hl⟩ := Option.isSome_iff_exists.mp hp.2
        have hq := quadSum_zero l p.values
          ((dictFind (ewcInit model lam).params p.name).getD [])
          (ewcInit_fisher_zero model lam p.name l hl)
        rw [if_pos hp, hl]
        simpa [hq] using ih acc
      · rw [if_neg hp]
        exact ih acc
  rw [hstep]
  exact mul_zero _

/-- C9.  Two successive `predict` calls on the same image with no
intervening training or calibration yield identical result records
(same verdict, confidence, certainty flag and class probabilities): the
only state change a call makes is appending to the replay buffer, which
the computation of the result never reads. -/
theorem c9_predict_deterministic (softmax : ℚ × ℚ → ℚ × ℚ) (s : PipeState) (img : ℕ) :
    (pipelinePredict softmax (pipelinePredict softmax s img).2 img).1 =
      (pipelinePredict softmax s img).1 :=
  rfl

/-- The uncertainty-gating policy of the fixed detector's
`predict_with_uncertainty`, for every calibrated probability vector (the
softmax output is arbitrary, so every probability row is covered): if
the confidence — the maximum class probability — is strictly below the
uncertainty threshold the verdict is the uncertain one regardless of
which class has the arg-max; if the confidence is at or above the
threshold (the boundary included) the verdict is the arg-max class
label, "real" or "synthetic", never the uncertain one. -/
theorem predictWithUncertainty_verdict_spec (net : ℕ → ℚ × ℚ) (softmax : ℚ × ℚ → ℚ × ℚ)
    (temperature threshold : ℚ) (applyTemperature : Bool) (img : ℕ) (r : UncResult)
    (hr : r = predictWithUncertainty net softmax temperature threshold applyTemperature img) :
    r.confidence = max r.realProbability r.syntheticProbability ∧
    (r.confidence < threshold → r.prediction = "UNCERTAIN") ∧
    (threshold ≤ r.confidence →
      r.prediction ≠ "UNCERTAIN" ∧
      ((r.syntheticProbability ≤ r.realProbability ∧ r.prediction = "real") ∨
       (r.realProbability ≤ r.syntheticProbability ∧ r.prediction = "synthetic"))) := by
  subst hr
  simp only [predictWithUncertainty, torchMax2]
  generalize softmax (if applyTemperature then
    ((net img).1 / temperature, (net img).2 / temperature) else net img) = q
  obtain ⟨q0, q1⟩ := q
  dsimp only
  by_cases h : q0 < q1
  · simp only [if_pos h]
    refine ⟨(max_eq_right h.le).symm, fun hc => ?_, fun hth => ?_⟩
    · simp [hc]
    · have hnc : ¬ q1 < threshold := not_lt.mpr hth
      simp [hnc, h.le]
  · have h' : q1 ≤ q0 := not_lt.mp h
    simp only [if_neg h]
    refine ⟨(max_eq_left h').symm, fun hc => ?_, fun hth => ?_⟩
    · simp [hc]
    · have hnc : ¬ q0 < threshold := not_lt.mpr hth
      simp [hnc, h']

/-- C1 (counterexample).  `EnhancedAIDetectorPipeline.predict` — the
claim's second cited implementation — never returns an uncertain
verdict: at confidence 1, strictly below the threshold 2, its
`prediction` field is still the arg-max label "ai_generated"; only the
separate `is_certain` flag is false.  This refutes the claim that below
the threshold the returned verdict is "uncertain" regardless of which
class won. -/
theorem c1_verdict_policy_counterexample :
    (pipelinePredict sm1 ps1 0).1.confidence < ps1.confidenceThreshold ∧
    (pipelinePredict sm1 ps1 0).1.isCertain = false ∧
    (pipelinePredict sm1 ps1 0).1.prediction = "ai_generated" ∧
    (pipelinePredict sm1 ps1 0).1.prediction ≠ "uncertain" ∧
    (pipelinePredict sm1 ps1 0).1.prediction ≠ "UNCERTAIN" := by
  refine ⟨by decide, by decide, by decide, by decide, by decide⟩

/-- C1 (amended).  The three-way verdict policy holds for
`predict_with_uncertainty` of the fixed detector: below the threshold
the verdict is "UNCERTAIN" regardless of the arg-max, and at or above it
(boundary included) the verdict is the arg-max label, never "UNCERTAIN".
`EnhancedAIDetectorPipeline.predict`, by contrast, always returns the
arg-max label ("ai_generated" / "real") and never an uncertain verdict;
low confidence there is signalled only by the `is_certain` flag, which
is false exactly when the confidence is strictly below the threshold. -/
theorem c1_verdict_policy_amended (net : ℕ → ℚ × ℚ) (softmax : ℚ × ℚ → ℚ × ℚ)
    (temperature threshold : ℚ) (applyTemperature : Bool) (img : ℕ) (r : UncResult)
    (hr : r = predictWithUncertainty net softmax temperature threshold applyTemperature img)
    (softmax2 : ℚ × ℚ → ℚ × ℚ) (s : PipeState) (img2 : ℕ) :
    (r.confidence = max r.realProbability r.syntheticProbability ∧
     (r.confidence < threshold → r.prediction = "UNCERTAIN") ∧
     (threshold ≤ r.confidence →
       r.prediction ≠ "UNCERTAIN" ∧
       ((r.syntheticProbability ≤ r.realProbability ∧ r.prediction = "real") ∨
        (r.realProbability ≤ r.syntheticProbability ∧ r.prediction = "synthetic")))) ∧
    ((pipelinePredict softmax2 s img2).1.prediction = "ai_generated" ∨
     (pipelinePredict softmax2 s img2).1.prediction = "real") ∧
    ((pipelinePredict softmax2 s img2).1.isCertain = false ↔
      (pipelinePredict softmax2 s img2).1.confidence < s.confidenceThreshold) := by
  refine ⟨predictWithUncertainty_verdict_spec net softmax temperature threshold
    applyTemperature img r hr, ?_, ?_⟩
  · simp only [pipelinePredict, torchMax2]
    generalize softmax2 ((s.net img2).1 / s.temperature, (s.net img2).2 / s.temperature) = q
    obtain ⟨q0, q1⟩ := q
    dsimp only
    by_cases h : q0 < q1 <;> simp [h]
  · simp only [pipelinePredict, torchMax2]
    generalize softmax2 ((s.net img2).1 / s.temperature, (s.net img2).2 / s.temperature) = q
    obtain ⟨q0, q1⟩ := q
    dsimp only
    by_cases h : q0 < q1 <;> simp [h, decide_eq_false_iff_not, not_le]

/-- C1 witness: the amended policy at probability row `(0, 1)` with
threshold 2 for the fixed detector and at the concrete pipeline state
`ps1`. -/
theorem c1_verdict_policy_amended_witness :
    ((predictWithUncertainty net0 sm1 1 2 true 0).confidence =
       max (predictWithUncertainty net0 sm1 1 2 true 0).realProbability
         (predictWithUncertainty net0 sm1 1 2 true 0).syntheticProbability ∧
     ((predictWithUncertainty net0 sm1 1 2 true 0).confidence < 2 →
       (predictWithUncertainty net0 sm1 1 2 true 0).prediction = "UNCERTAIN") ∧
     (2 ≤ (predictWithUncertainty net0 sm1 1 2 true 0).confidence →
       (predictWithUncertainty net0 sm1 1 2 true 0).prediction ≠ "UNCERTAIN" ∧
       (((predictWithUncertainty net0 sm1 1 2 true 0).syntheticProbability ≤
           (predictWithUncertainty net0 sm1 1 2 true 0).realProbability ∧
         (predictWithUncertainty net0 sm1 1 2 true 0).prediction = "real") ∨
        ((predictWithUncertainty net0 sm1 1 2 true 0).realProbability ≤
           (predictWithUncertainty net0 sm1 1 2 true 0).syntheticProbability ∧
         (predictWithUncertainty net0 sm1 1 2 true 0).prediction = "synthetic")))) ∧
    ((pipelinePredict sm1 ps1 0).1.prediction = "ai_generated" ∨
     (pipelinePredict sm1 ps1 0).1.prediction = "real") ∧
    ((pipelinePredict sm1 ps1 0).1.isCertain = false ↔
      (pipelinePredict sm1 ps1 0).1.confidence < ps1.confidenceThreshold) :=
  c1_verdict_policy_amended net0 sm1 1 2 true 0 _ rfl sm1 ps1 0

/-- C10.  In every result record of `predict_with_uncertainty`, the
`is_uncertain` flag is true exactly when the `prediction` field is the
string "UNCERTAIN", and whenever the flag is false the prediction is
exactly "real" or "synthetic": flag and verdict string can never
disagree. -/
theorem c10_uncertain_flag_iff (net : ℕ → ℚ × ℚ) (softmax : ℚ × ℚ → ℚ × ℚ)
    (temperature threshold : ℚ) (applyTemperature : Bool) (img : ℕ) (r : UncResult)
    (hr : r = predictWithUncertainty net softmax temperature threshold applyTemperature img) :
    (r.isUncertain = true ↔ r.prediction = "UNCERTAIN") ∧
    (r.isUncertain = false → r.prediction = "real" ∨ r.prediction = "synthetic") := by
  subst hr
  simp only [predictWithUncertainty, torchMax2]
  generalize softmax (if applyTemperature then
    ((net img).1 / temperature, (net img).2 / temperature) else net img) = q
  obtain ⟨q0, q1⟩ := q
  dsimp only
  by_cases h : q0 < q1
  · simp only [if_pos h]
    by_cases hu : q1 < threshold <;> simp [hu]
  · simp only [if_neg h]
    by_cases hu : q0 < threshold <;> simp [hu]

/-- C10 witness: the flag/verdict coherence at the concrete probability
row `(0, 1)` with threshold 2. -/
theorem c10_uncertain_flag_iff_witness :
    ((predictWithUncertainty net0 sm1 1 2 true 0).isUncertain = true ↔
      (predictWithUncertainty net0 sm1 1 2 true 0).prediction = "UNCERTAIN") ∧
    ((predictWithUncertainty net0 sm1 1 2 true 0).isUncertain = false →
      (predictWithUncertainty net0 sm1 1 2 true 0).prediction = "real" ∨
      (predictWithUncertainty net0 sm1 1 2 true 0).prediction = "synthetic") :=
  c10_uncertain_flag_iff net0 sm1 1 2 true 0 _ rfl

/-- Selecting entries of `l` at a list of in-range indices yields as
many entries as indices. -/
theorem filterMap_getElem_length {α : Type} (l : List α) (idx : List ℕ)
    (h : ∀ i ∈ idx, i < l.length) :
    (idx.filterMap fun i => l[i]?).length = idx.length := by
  induction idx with
  | nil => rfl
  | cons i idx ih =>
    have hi : i < l.length := h i (by simp)
    simp only [List.filterMap_cons, List.getElem?_eq_getElem hi, List.length_cons]
    rw [ih fun j hj => h j (by simp [hj])]

/-- Every entry selected by index from `l` is an entry of `l`. -/
theorem mem_filterMap_getElem {α : Type} {l : List α} {idx : List ℕ} {x : α}
    (hx : x ∈ idx.filterMap fun i => l[i]?) : x ∈ l := by
  obtain ⟨i, _, hi⟩ := List.mem_filterMap.mp hx
  obtain ⟨h, rfl⟩ := List.getElem?_eq_some.mp hi
  exact List.getElem_mem h

/-- Selecting entries of a duplicate-free list at duplicate-free indices
yields a duplicate-free list. -/
theorem filterMap_getElem_nodup {α : Type} (l : List α) (hl : l.Nodup) (idx : List ℕ)
    (hidx : idx.Nodup) :
    (idx.filterMap fun i => l[i]?).Nodup := by
  refine List.Nodup.filterMap ?_ hidx
  intro a b c hac hbc
  obtain ⟨ha, hca⟩ := List.getElem?_eq_some.mp hac
  obtain ⟨hb, hcb⟩ := List.getElem?_eq_some.mp hbc
  exact (hl.getElem_inj_iff).mp (hca.trans hcb.symm)

/-- C3 (amended).  For every valid draw function (`np.random.choice`
returns distinct in-range indices) and duplicate-free store:
if the store holds fewer than `batch_size` samples, `sample` returns all
of them; otherwise it returns `feedback_count + min(batch_size −
feedback_count, |no-feedback subset|)` distinct samples, where
`feedback_count = min(int(batch_size·0.7), |feedback subset|)` — a
too-small feedback subset's shortfall is filled from the no-feedback
subset (the remainder is `batch_size − feedback_count`), but a too-small
no-feedback subset's shortfall is **not** refilled from the feedback
subset, so the call can return fewer than `batch_size` samples; the
result never exceeds `batch_size` and never contains duplicates. -/
theorem c3_sample_amended (choose : ℕ → ℕ → List ℕ)
    (hlen : ∀ n k, k ≤ n → (choose n k).length = k)
    (hnodup : ∀ n k, (choose n k).Nodup)
    (hmem : ∀ n k, k ≤ n → ∀ i ∈ choose n k, i < n)
    (buffer : List ReplaySample) (batchSize : ℕ) (hbuf : buffer.Nodup) :
    (buffer.length < batchSize → replaySample choose buffer batchSize = buffer) ∧
    (replaySample choose buffer batchSize).length = replaySampleSize buffer batchSize ∧
    (replaySample choose buffer batchSize).length ≤ max batchSize buffer.length ∧
    (replaySample choose buffer batchSize).Nodup := by
  by_cases hlt : buffer.length < batchSize
  · have he : replaySample choose buffer batchSize = buffer := by
      simp [replaySample, hlt]
    refine ⟨fun _ => he, ?_, ?_, ?_⟩
    · rw [he]
      simp [replaySampleSize, hlt]
    · rw [he]
      exact le_max_right batchSize buffer.length
    · rw [he]
      exact hbuf
  · have hge : batchSize ≤ buffer.length := not_lt.mp hlt
    set fb := buffer.filter (fun s => s.userFeedback.isSome) with hfb_def
    set nfb := buffer.filter (fun s => s.userFeedback.isNone) with hnfb_def
    set fbCount := min (batchSize * 7 / 10) fb.length with hfbc_def
    have hfb_nd : fb.Nodup := hbuf.filter _
    have hnfb_nd : nfb.Nodup := hbuf.filter _
    have hfbc_le : fbCount ≤ fb.length := min_le_right _ _
    have hsel1P : 0 < fbCount →
        ((choose fb.length fbCount).filterMap fun i => fb[i]?).length = fbCount := by
      intro _
      rw [filterMap_getElem_length _ _ (hmem _ _ hfbc_le), hlen _ _ hfbc_le]
    have hsel2P : ((choose nfb.length (min (batchSize - fbCount) nfb.length)).filterMap
        fun i => nfb[i]?).length = min (batchSize - fbCount) nfb.length := by
      rw [filterMap_getElem_length _ _ (hmem _ _ (min_le_right _ _)),
        hlen _ _ (min_le_right _ _)]
    have hrepr : replaySample choose buffer batchSize =
        (if 0 < fbCount then (choose fb.length fbCount).filterMap fun i => fb[i]? else []) ++
        (if 0 < batchSize - fbCount ∧ ¬ nfb.isEmpty then
          (choose nfb.length (min (batchSize - fbCount) nfb.length)).filterMap
            fun i => nfb[i]?
        else []) := by
      simp only [replaySample, if_neg hlt, ← hfb_def, ← hnfb_def, ← hfbc_def]
    have hlen_total : (replaySample choose buffer batchSize).length =
        fbCount + min (batchSize - fbCount) nfb.length := by
      rw [hrepr, List.length_append]
      by_cases h1 : 0 < fbCount
      · rw [if_pos h1, hsel1P h1]
        by_cases h2 : 0 < batchSize - fbCount ∧ ¬ nfb.isEmpty
        · rw [if_pos h2, hsel2P]
        · rw [if_neg h2]
          rcases not_and_or.mp h2 with h3 | h3
          · simp only [List.length_nil]
            omega
          · have h4 : nfb = [] := List.isEmpty_iff.mp (not_not.mp h3)
            have h5 : nfb.length = 0 := by rw [h4]; rfl
            simp only [List.length_nil]
            omega
      · rw [if_neg h1]
        have h0 : fbCount = 0 := by omega
        by_cases h2 : 0 < batchSize - fbCount ∧ ¬ nfb.isEmpty
        · rw [if_pos h2, hsel2P]
          simp [h0]
        · rw [if_neg h2]
          rcases not_and_or.mp h2 with h3 | h3
          · simp only [List.length_nil]
            omega
          · have h4 : nfb = [] := List.isEmpty_iff.mp (not_not.mp h3)
            have h5 : nfb.length = 0 := by rw [h4]; rfl
            simp only [List.length_nil]
            omega
    have hsize : replaySampleSize buffer batchSize =
        fbCount + min (batchSize - fbCount) nfb.length := by
      simp only [replaySampleSize, if_neg hlt, ← hfb_def, ← hnfb_def, ← hfbc_def]
    have hdiv : batchSize * 7 / 10 ≤ batchSize := by omega
    refine ⟨fun hc => absurd hc hlt, by rw [hlen_total, hsize], ?_, ?_⟩
    · rw [hlen_total]
      have : fbCount ≤ batchSize := le_trans (min_le_left _ _) hdiv
      omega
    · rw [hrepr]
      refine List.Nodup.append ?_ ?_ ?_
      · by_cases h1 : 0 < fbCount
        · rw [if_pos h1]
          exact filterMap_getElem_nodup fb hfb_nd _ (hnodup _ _)
        · rw [if_neg h1]
          exact List.nodup_nil
      · by_cases h2 : 0 < batchSize - fbCount ∧ ¬ nfb.isEmpty
        · rw [if_pos h2]
          exact filterMap_getElem_nodup nfb hnfb_nd _ (hnodup _ _)
        · rw [if_neg h2]
          exact List.nodup_nil
      · intro x hx1 hx2
        have hxfb : x ∈ fb := by
          by_cases h1 : 0 < fbCount
          · rw [if_pos h1] at hx1
            exact mem_filterMap_getElem hx1
          · rw [if_neg h1] at hx1
            exact absurd hx1 (List.not_mem_nil x)
        have hxnfb : x ∈ nfb := by
          by_cases h2 : 0 < batchSize - fbCount ∧ ¬ nfb.isEmpty
          · rw [if_pos h2] at hx2
            exact mem_filterMap_getElem hx2
          · rw [if_neg h2] at hx2
            exact absurd hx2 (List.not_mem_nil x)
        have h1 : x.userFeedback.isSome := ((List.mem_filter.mp hxfb).2 : _)
        have h2 : x.userFeedback.isNone := ((List.mem_filter.mp hxnfb).2 : _)
        cases hx : x.userFeedback <;> rw [hx] at h1 h2 <;> simp_all

/-- C3 witness: the amended sampling contract at the concrete ten-sample
buffer (nine with feedback, one without) with `batch_size = 10` and the
deterministic first-`k`-indices draw. -/
theorem c3_sample_amended_witness :
    (c3buffer.length < 10 → replaySample chooseRange c3buffer 10 = c3buffer) ∧
    (replaySample chooseRange c3buffer 10).length = replaySampleSize c3buffer 10 ∧
    (replaySample chooseRange c3buffer 10).length ≤ max 10 c3buffer.length ∧
    (replaySample chooseRange c3buffer 10).Nodup :=
  c3_sample_amended chooseRange (fun n k _ => by simp [chooseRange])
    (fun n k => List.nodup_range k)
    (fun n k hk i hi => lt_of_lt_of_le (List.mem_range.mp hi) hk)
    c3buffer 10 (by decide)

/-- C3 (counterexample).  A store of 10 samples — nine with user
feedback, one without — and `batch_size = 10`: the claim demands exactly
10 samples back, but `sample` draws `feedback_count = min(7, 9) = 7`
from the feedback subset and only `min(3, 1) = 1` from the no-feedback
subset, never returning to the feedback subset for the shortfall, so it
returns 8 samples, not 10. -/
theorem c3_sample_counterexample :
    c3buffer.length = 10 ∧
    (replaySample chooseRange c3buffer 10).length = 8 ∧ (8 : ℕ) ≠ 10 := by
  refine ⟨by decide, by decide, by decide⟩

/-- One bounded-deque append changes the length to
`min (old length + 1) cap`. -/
theorem dequeAppend_length {α : Type} (cap : ℕ) (buf : List α) (a : α) :
    (dequeAppend cap buf a).length = min (buf.length + 1) cap := by
  unfold dequeAppend
  by_cases h : cap < (buf ++ [a]).length
  · rw [if_pos h]
    simp only [List.length_drop, List.length_append, List.length_cons, List.length_nil]
    simp only [List.length_append, List.length_cons, List.length_nil] at h
    omega
  · rw [if_neg h]
    simp only [List.length_append, List.length_cons, List.length_nil] at h ⊢
    omega

/-- Folding a sequence of bounded `add` calls over a buffer that fits
the capacity leaves `min (start + number of adds) cap` samples. -/
theorem replayAddAll_length_aux (cap : ℕ) (inputs : List AddInput) :
    ∀ buf : List ReplaySample, buf.length ≤ cap →
      (inputs.foldl (fun buf a =>
        replayAdd cap buf a.img a.pred a.conf a.gt a.uf) buf).length =
        min (buf.length + inputs.length) cap := by
  induction inputs with
  | nil =>
    intro buf h
    simp only [List.foldl_nil, List.length_nil]
    omega
  | cons a inputs ih =>
    intro buf h
    rw [List.foldl_cons]
    have h1 : (replayAdd cap buf a.img a.pred a.conf a.gt a.uf).length =
        min (buf.length + 1) cap := dequeAppend_length cap buf _
    have h2 : (replayAdd cap buf a.img a.pred a.conf a.gt a.uf).length ≤ cap := by
      rw [h1]
      omega
    rw [ih (replayAdd cap buf a.img a.pred a.conf a.gt a.uf) h2, h1, List.length_cons]
    omega

/-- The buffer after `n` adds from empty holds `min n cap` samples; in
particular the `insertion_order` the next `add` assigns is `min n cap`. -/
theorem replayAddAll_length (cap : ℕ) (inputs : List AddInput) :
    (replayAddAll cap inputs).length = min inputs.length cap := by
  have h := replayAddAll_length_aux cap inputs [] (by simp)
  simpa [replayAddAll] using h

/-- The `insertion_order` assigned by the `(k+1)`-th add is `min k cap`. -/
theorem orderAt_eq (cap : ℕ) (inputs : List AddInput) (k : ℕ)
    (hk : k ≤ inputs.length) :
    orderAt cap inputs k = min k cap := by
  unfold orderAt
  rw [replayAddAll_length]
  simp only [List.length_take]
  omega

/-- C7 (amended).  Along any sequence of `add` calls, the
`insertion_order` assigned to the `(k+1)`-th inserted sample is
`min k capacity`: the counter is monotone non-decreasing, and it is
strictly greater than an earlier sample's order exactly when the earlier
add still found the store below capacity — once the deque is full, every
new sample receives `insertion_order = capacity`, equal to (not greater
than) its predecessor's. -/
theorem c7_insertion_order_amended (cap : ℕ) (inputs : List AddInput) (i j : ℕ)
    (hij : i < j) (hj : j ≤ inputs.length) :
    orderAt cap inputs i = min i cap ∧
    orderAt cap inputs j = min j cap ∧
    orderAt cap inputs i ≤ orderAt cap inputs j ∧
    (orderAt cap inputs i < orderAt cap inputs j ↔ i < cap) := by
  have hi := orderAt_eq cap inputs i (le_of_lt (lt_of_lt_of_le hij hj))
  have hjj := orderAt_eq cap inputs j hj
  refine ⟨hi, hjj, ?_, ?_⟩ <;> rw [hi, hjj] <;> omega

/-- C7 witness: with capacity 2, the first two adds of the four-add
sequence receive strictly increasing orders 0 and 1. -/
theorem c7_insertion_order_amended_witness :
    orderAt 2 c7inputs 0 = min 0 2 ∧ orderAt 2 c7inputs 1 = min 1 2 ∧
    orderAt 2 c7inputs 0 ≤ orderAt 2 c7inputs 1 ∧
    (orderAt 2 c7inputs 0 < orderAt 2 c7inputs 1 ↔ 0 < 2) :=
  c7_insertion_order_amended 2 c7inputs 0 1 (by decide) (by decide)

/-- C7 (counterexample).  `insertion_order` is `len(self.buffer)` taken
from a deque bounded at `max_size`: with capacity 2, the third and the
fourth add both find a full buffer of length 2 and both receive
`insertion_order = 2` — after eviction begins the samples in the store
carry orders `[2, 2]`, and the newest sample's order is not strictly
greater than that of the sample inserted before it, refuting the
strictly-increasing-counter claim. -/
theorem c7_insertion_order_counterexample :
    (replayAddAll 2 c7inputs).map ReplaySample.timestamp = [2, 2] ∧
    orderAt 2 c7inputs 2 = 2 ∧ orderAt 2 c7inputs 3 = 2 ∧
    ¬ (orderAt 2 c7inputs 2 < orderAt 2 c7inputs 3) := by
  refine ⟨by decide, by decide, by decide, by decide⟩

/-- Every entry of a ReLU-rectified map is non-negative. -/
theorem relu2d_nonneg (m : Mat) : ∀ row ∈ relu2d m, ∀ x ∈ row, 0 ≤ x := by
  intro row hrow x hx
  simp only [relu2d, List.mem_map] at hrow
  obtain ⟨row0, _, rfl⟩ := hrow
  simp only [List.mem_map] at hx
  obtain ⟨y, _, rfl⟩ := hx
  exact le_max_right y 0

/-- C8 (amended).  `GradCAM.generate_cam` of the fixed detector returns
an element-wise non-negative heatmap and normalizes by the maximum only
when that maximum is positive — an all-zero rectified map is returned
unchanged.  (`GradCAMVisualizer.generate_heatmap` of the other
implementation divides unconditionally; see the counterexample.) -/
theorem c8_cam_nonneg_guarded_amended (grads acts : List Mat) :
    (∀ row ∈ generateCam grads acts, ∀ x ∈ row, 0 ≤ x) ∧
    (matMax (relu2d (camWeightedSum grads acts)) = 0 →
      generateCam grads acts = relu2d (camWeightedSum grads acts)) ∧
    (0 < matMax (relu2d (camWeightedSum grads acts)) →
      generateCam grads acts =
        scale2d (1 / matMax (relu2d (camWeightedSum grads acts)))
          (relu2d (camWeightedSum grads acts))) := by
  unfold generateCam
  by_cases h : 0 < matMax (relu2d (camWeightedSum grads acts))
  · rw [if_pos h]
    refine ⟨?_, ?_, fun _ => rfl⟩
    · intro row hrow x hx
      simp only [scale2d, List.mem_map] at hrow
      obtain ⟨row0, hrow0, rfl⟩ := hrow
      simp only [List.mem_map] at hx
      obtain ⟨y, hy, rfl⟩ := hx
      have hy0 : 0 ≤ y := relu2d_nonneg _ row0 hrow0 y hy
      have hpos : (0 : ℚ) < 1 / matMax (relu2d (camWeightedSum grads acts)) :=
        by positivity
      exact mul_nonneg hpos.le hy0
    · intro h0
      rw [h0] at h
      exact absurd h (lt_irrefl 0)
  · rw [if_neg h]
    exact ⟨relu2d_nonneg _, fun _ => rfl, fun hp => absurd hp h⟩

/-- C8 witness: at the concrete gradient/activation pair whose rectified
map is all-zero, `generate_cam` returns the map unchanged. -/
theorem c8_cam_nonneg_guarded_amended_witness :
    generateCam c8grads c8acts = relu2d (camWeightedSum c8grads c8acts) :=
  (c8_cam_nonneg_guarded_amended c8grads c8acts).2.1 (by
    norm_num [matMax, relu2d, camWeightedSum, c8grads, c8acts, spatialMean,
      zerosLike, matAdd, scale2d])

/-- C8 (counterexample).  A 1×1 single-channel activation with a
negative gradient contribution: the rectified map is `[[0]]`, all zeros,
but `GradCAMVisualizer.generate_heatmap` divides by
`torch.max(heatmap) = 0` unconditionally, so instead of returning the
all-zero map unchanged it produces a non-finite (NaN) entry, refuting
the claim for this implementation. -/
theorem c8_heatmap_divzero_counterexample :
    relu2d (camWeightedSum c8grads c8acts) = [[0]] ∧
    generateHeatmap c8grads c8acts = [[none]] := by
  have hsum : camWeightedSum c8grads c8acts = [[-1]] := by
    norm_num [camWeightedSum, c8grads, c8acts, spatialMean, zerosLike,
      matAdd, scale2d]
  have hrelu : relu2d (camWeightedSum c8grads c8acts) = [[0]] := by
    rw [hsum]
    norm_num [relu2d]
  refine ⟨hrelu, ?_⟩
  unfold generateHeatmap
  rw [hrelu]
  norm_num [matMax, fdiv]

end AIForensics
